import Mathlib

/-!
Verification development for the GroupedOPH library (src/index.js): Grouped
One-Permutation Hashing sketch construction, bit-depth management and Jaccard
similarity estimation.  JavaScript 32-bit integer arithmetic is embedded over
`ℕ` (values taken modulo 2^32) and `ℤ` (for the signed results of the JS `&`
operator); JS floating-point arithmetic on similarity values is idealized as
exact rational arithmetic over `ℚ`.  The transcendental normal-approximation
branch of the binomial CDF (`_normalApproxBinomialCDF`, which uses `erf`,
`exp` and `sqrt`) has no exact rational embedding, so the development is
parameterized over the value it returns; every theorem about the estimator
holds for an arbitrary such function, in particular for the one the source
computes.
-/

namespace GroupedOPH

/-- Modulus of JavaScript 32-bit integer arithmetic. -/
def U32 : ℕ := 4294967296

/-- Signed bound of JavaScript 32-bit integers. -/
def I32 : ℕ := 2147483648

/-- Reinterpretation of a JS uint32 bit pattern as a signed 32-bit integer,
as performed by ToInt32 in the JS `&` operator. -/
def toInt32 (n : ℕ) : ℤ :=
  if n % U32 < I32 then ((n % U32 : ℕ) : ℤ) else ((n % U32 : ℕ) : ℤ) - (U32 : ℤ)

/-- Reinterpretation of a signed JS number as a uint32 bit pattern, as
performed by the `new Uint32Array(...)` conversion and by `>>> 0`. -/
def toUint32 (z : ℤ) : ℕ := (z % (U32 : ℤ)).toNat

/-- JS `a & b` on 32-bit values: bitwise AND of the uint32 bit patterns,
reinterpreted as a signed 32-bit integer (this is why `h &= 0xFFFFFFFF` can
produce a negative JS number). -/
def jsAnd32 (a b : ℕ) : ℤ := toInt32 ((a % U32) &&& (b % U32))

/-- Left rotation of a 32-bit word: models the JS idiom
`(x << n) | (x >>> (32 - n))` used in MurmurHash3 (src/index.js lines 110, 114). -/
def rotl32 (x n : ℕ) : ℕ := ((x <<< n) % U32) ||| (x >>> (32 - n))

/-- Avalanche chain shared by `_murmurhash3_finalize` (src/index.js lines 89-94)
and `_computeDenseHash` (lines 128-133): the xor-shift / wrapping-multiply
steps of the MurmurHash3 fmix32 finalizer, ending in the `>>> 0` that makes
the value an unsigned 32-bit integer. -/
def fmix32core (h0 : ℕ) : ℕ :=
  let h1 := (h0 % U32) ^^^ ((h0 % U32) >>> 16)
  let h2 := (h1 * 0x85ebca6b) % U32
  let h3 := h2 ^^^ (h2 >>> 13)
  let h4 := (h3 * 0xc2b2ae35) % U32
  h4 ^^^ (h4 >>> 16)

/-- Embedding of `_murmurhash3_finalize(h1, len)` (src/index.js lines 86-95). -/
def murmurhash3_finalize (h1 len : ℕ) : ℕ :=
  fmix32core ((h1 % U32) ^^^ (len % U32))

/-- Embedding of `murmurhash3_32_gc_single_int(k1, seed)` (src/index.js lines
105-118): MurmurHash3-32 of a single 32-bit integer. -/
def murmurhash3_32_gc_single_int (k1o seed : ℕ) : ℕ :=
  let k1 := (k1o % U32 * 0xcc9e2d51) % U32
  let k2 := rotl32 k1 15
  let k3 := (k2 * 0x1b873593) % U32
  let h1 := (seed % U32) ^^^ k3
  let h2 := rotl32 h1 13
  let h3 := (h2 * 5) % U32 + 0xe6546b64
  murmurhash3_finalize h3 4

/-- Per-width mask table of `_computeDenseHash` (src/index.js lines 135-146). -/
def maskOf (bitDepth : ℕ) : ℕ :=
  if bitDepth = 8 then 0xFF
  else if bitDepth = 4 then 0x0F
  else if bitDepth = 2 then 0x03
  else if bitDepth = 16 then 0xFFFF
  else 0xFFFFFFFF

/-- Embedding of `_computeDenseHash(baseHash, bitDepth)` (src/index.js lines
126-150).  The result is a JS number: because `h &= mask` uses the signed JS
`&` operator, the result is an `ℤ` and can be negative when `bitDepth = 32`. -/
def computeDenseHash (baseHash : ℕ) (bitDepth : ℕ) : ℤ :=
  let h := fmix32core baseHash
  let h2 := jsAnd32 h (maskOf bitDepth)
  if h2 = 0 then 1 else h2

/-! ### Sketch construction (`generateGroupedOPHSignature`, src/index.js lines 278-345) -/

/-- Working-buffer slot values during construction are JS numbers; `none`
models the JS `Infinity` used as the fill value at `bitDepth = 32`, `some z`
a finite JS number. -/
def fillVal (bitDepth : ℕ) : Option ℤ :=
  if bitDepth = 32 then none else some (maskOf bitDepth : ℤ)

/-- JS comparison `h < signature[signatureIndex]` where the slot may hold
`Infinity` (src/index.js line 327). -/
def slotLt (h : ℤ) : Option ℤ → Bool
  | none => true
  | some z => decide (h < z)

/-- Inner loop over group indices for one element (src/index.js lines 322-330):
base hash seeded by the group index, bin `j = baseHash % M`, dense hash, and
conditional minimum update at slot `i * M + j`. -/
def applyElement (numGroups M bitDepth : ℕ) (sig : List (Option ℤ)) (e : ℕ) :
    List (Option ℤ) :=
  (List.range numGroups).foldl
    (fun s i =>
      let baseHash := murmurhash3_32_gc_single_int e i
      let j := baseHash % M
      let h := computeDenseHash baseHash bitDepth
      let signatureIndex := i * M + j
      if slotLt h (s.getD signatureIndex none) then s.set signatureIndex (some h)
      else s)
    sig

/-- Core of `generateGroupedOPHSignature` after argument validation
(src/index.js lines 292-344): allocate the buffer filled with the per-width
fill value, take slot-wise minima of dense hashes over all elements, replace
any slot still equal to the fill value by 0, and materialize the result as
unsigned integers (`new Uint32Array` for width 32). -/
def buildCore (elementHashSet : List ℕ) (numHashes numGroups bitDepth : ℕ) :
    List ℕ :=
  let M := numHashes / numGroups
  let init := List.replicate numHashes (fillVal bitDepth)
  let sig := elementHashSet.foldl (applyElement numGroups M bitDepth) init
  sig.map (fun v =>
    if v = fillVal bitDepth then 0
    else match v with
      | none => 0
      | some z => toUint32 z)

/-- JS test `typeof q === "number" && q > 0 && Number.isInteger(q)` on an
option value modeled as a rational. -/
def isPosIntQ (q : ℚ) : Bool := decide (0 < q) && (q.den == 1)

/-- Embedding of `generateGroupedOPHSignature(elementHashSet, numHashes,
numGroups, bitDepth)` (src/index.js lines 278-345); numeric parameters are JS
numbers (`ℚ`), element hashes are 32-bit unsigned integers. -/
def generateGroupedOPHSignature (elementHashSet : List ℕ)
    (numHashes numGroups bitDepth : ℚ) : Except String (List ℕ) :=
  if ¬ isPosIntQ numHashes then Except.error "numHashes must be a positive integer."
  else if ¬ isPosIntQ numGroups then Except.error "numGroups must be a positive integer."
  else if numHashes.num % numGroups.num ≠ 0 then Except.error "numHashes must be divisible by numGroups."
  else if ¬ (bitDepth = 2 ∨ bitDepth = 4 ∨ bitDepth = 8 ∨ bitDepth = 16 ∨ bitDepth = 32) then
    Except.error "bitDepth must be 2, 4, 8, 16, or 32."
  else Except.ok (buildCore elementHashSet numHashes.num.toNat numGroups.num.toNat bitDepth.num.toNat)

/-- Slot `idx` receives at least one element during construction: some element
hash, under some group seed `i`, maps to bin `j` with `idx = i * M + j`
(src/index.js lines 322-326). -/
def slotTouched (elementHashSet : List ℕ) (numGroups M idx : ℕ) : Bool :=
  elementHashSet.any (fun e =>
    (List.range numGroups).any (fun i =>
      idx == i * M + (murmurhash3_32_gc_single_int e i % M)))

/-! ### Width management (`getBitDepth`, `downgradeSignature`, src/index.js lines 352-413) -/

/-- The three TypedArray container kinds a signature can be stored in. -/
inductive Container where
  | u8 : Container
  | u16 : Container
  | u32 : Container
deriving DecidableEq

/-- A signature value: its TypedArray container kind and its slot values. -/
structure Sketch where
  container : Container
  data : List ℕ
deriving DecidableEq

/-- Embedding of `getBitDepth(signature)` (src/index.js lines 352-357): the
container kind alone determines the answer, so 2- and 4-bit sketches (stored
in `Uint8Array`) report 8. -/
def getBitDepth (s : Sketch) : ℕ :=
  match s.container with
  | Container.u8 => 8
  | Container.u16 => 16
  | Container.u32 => 32

/-- Container allocated by `downgradeSignature` for a target bit depth
(src/index.js lines 382-396). -/
def downgradeContainer (targetBitDepth : ℕ) : Container :=
  if targetBitDepth = 16 then Container.u16 else Container.u8

/-- Per-slot body of the `downgradeSignature` loop (src/index.js lines
400-411): zero stays zero, any other value is masked, and a masked-to-zero
value is promoted to 1. -/
def downgradeValue (mask originalValue : ℕ) : ℕ :=
  if originalValue = 0 then 0
  else
    let maskedValue := originalValue &&& mask
    if maskedValue = 0 then 1 else maskedValue

/-- Embedding of `downgradeSignature(signature, targetBitDepth)` (src/index.js
lines 369-413): validate widths, then mask every nonzero slot to the target
width, promoting a masked-to-zero value to 1. -/
def downgradeSignature (signature : Sketch) (targetBitDepth : ℕ) :
    Except String Sketch :=
  let currentBitDepth := getBitDepth signature
  if targetBitDepth ≥ currentBitDepth then
    Except.error "Target bit depth must be lower than current bit depth for downgrade."
  else if ¬ (targetBitDepth = 2 ∨ targetBitDepth = 4 ∨ targetBitDepth = 8 ∨ targetBitDepth = 16) then
    Except.error "Target bit depth must be 2, 4, 8, or 16."
  else
    let mask := maskOf targetBitDepth
    Except.ok (Sketch.mk (downgradeContainer targetBitDepth)
      (signature.data.map (downgradeValue mask)))

/-! ### Similarity estimation (`estimateJaccardSimilarity`, src/index.js lines 429-586) -/

/-- Union counter of the estimator loops: slots where at least one side is
nonzero (src/index.js lines 481, 528). -/
def countUnion (z : List (ℕ × ℕ)) : ℕ :=
  z.countP (fun p => !(p.1 == 0) || !(p.2 == 0))

/-- Match counter of the estimator loops: slots where both sides are equal and
nonzero (src/index.js lines 483, 533). -/
def countMatches (z : List (ℕ × ℕ)) : ℕ :=
  z.countP (fun p => (p.1 == p.2) && !(p.1 == 0))

/-- Tie-breaking epsilon `1e-9` of the early-exit floor/ceil computations
(src/index.js lines 560, 576), idealized as an exact rational. -/
def tieEps : ℚ := 1 / 1000000000

/-- Iterative PMF summation of `_binomialCDF` (src/index.js lines 181-201):
starting from the term `(1-p)^n`, repeatedly multiply by
`(n-i+1)/i * p/(1-p)`, accumulate, break once a term vanishes, absorb minor
overflow just above 1, and finally clamp at 1. -/
def binomialExactSum (k : ℕ) (n_trials : ℕ) (p_success : ℚ) : ℚ :=
  let firstTerm := (1 - p_success) ^ n_trials
  let result := (List.range' 1 k).foldl
    (fun st i =>
      match st with
      | (sum_prob, current_pmf_term, stopped) =>
        if stopped then (sum_prob, current_pmf_term, stopped)
        else if current_pmf_term = 0 ∧ 0 < p_success then (sum_prob, current_pmf_term, true)
        else
          let factor := (((n_trials : ℚ) - (i : ℚ) + 1) / (i : ℚ)) * (p_success / (1 - p_success))
          let nextTerm := current_pmf_term * factor
          let nextSum := sum_prob + nextTerm
          let clamped := if 1 < nextSum ∧ nextSum < 1.000000001 then 1 else nextSum
          (clamped, nextTerm, stopped))
    (firstTerm, firstTerm, false)
  min result.1 1

/-- Embedding of `_binomialCDF(k_to_sum, n_trials, p_success, ...)`
(src/index.js lines 167-202).  The normal-approximation branch
(`_normalApproxBinomialCDF`) evaluates `erf` and `sqrt`, which have no exact
rational embedding; it is abstracted by the parameter `napprox`.  The
`mean_in`/`stdDev_in` arguments of the source are omitted because every call
in the estimator passes either `undefined` (the defaults) or the very values
the defaults would compute (`k_prime * T` and its standard deviation). -/
def binomialCDF (napprox : ℤ → ℕ → ℚ → ℚ) (k_to_sum : ℤ) (n_trials : ℕ)
    (p_success : ℚ) : ℚ :=
  if k_to_sum < 0 then 0
  else if (n_trials : ℤ) ≤ k_to_sum then 1
  else if p_success = 0 then 1
  else if p_success = 1 then (if (n_trials : ℤ) ≤ k_to_sum then 1 else 0)
  else if 30 < n_trials ∧ 5 ≤ (n_trials : ℚ) * p_success ∧ 5 ≤ (n_trials : ℚ) * (1 - p_success) then
    napprox k_to_sum n_trials p_success
  else binomialExactSum k_to_sum.toNat n_trials p_success

/-- Group loop of the optimized estimator (src/index.js lines 517-585), over
the zipped signatures `z`.  Arguments after the fixed parameters: the current
group index `l`, the number of groups still to process (`fuel`, so
`fuel = G_eff - l`), and the running match and union counters `Mc`, `Uc`.
`TE = some (T, eps)` iff statistical early termination is active.  The base
case `fuel = 0` is the final return of line 585. -/
def ophLoop (napprox : ℤ → ℕ → ℚ → ℚ) (z : List (ℕ × ℕ)) (kp L : ℕ)
    (effTarget : ℚ) (TE : Option (ℚ × ℚ)) : ℕ → ℕ → ℕ → ℕ → ℚ
  | _, 0, Mc, Uc => if Uc = 0 then 1 else (Mc : ℚ) / (Uc : ℚ)
  | l, fuel + 1, Mc, Uc =>
    let slice := (z.drop (l * kp)).take kp
    let Mc2 := Mc + countMatches slice
    let Uc2 := Uc + countUnion slice
    if fuel = 0 then (if Uc2 = 0 then 1 else (Mc2 : ℚ) / (Uc2 : ℚ))
    else
      let Mra := (effTarget - (Mc2 : ℚ)) / (fuel : ℚ)
      match TE with
      | none => ophLoop napprox z kp L effTarget TE (l + 1) fuel Mc2 Uc2
      | some (T, eps) =>
        let Ma := (kp : ℚ) * T
        if Mra < Ma then
          if binomialCDF napprox ⌊Mra - tieEps⌋ kp T ≤ eps then
            let processed := (l + 1) * kp
            let estUnion := ((Uc2 : ℚ) / (processed : ℚ)) * (L : ℚ)
            let estMatches := ((Mc2 : ℚ) / (processed : ℚ)) * (L : ℚ)
            if estUnion = 0 then 1 else estMatches / estUnion
          else ophLoop napprox z kp L effTarget TE (l + 1) fuel Mc2 Uc2
        else
          if 1 - binomialCDF napprox (⌈Mra - tieEps⌉ - 1) kp T ≤ eps then 0
          else ophLoop napprox z kp L effTarget TE (l + 1) fuel Mc2 Uc2

/-- Options object of `estimateJaccardSimilarity`; `none` models an absent
(`undefined`) field, `some q` a supplied JS number. -/
structure EstimateOptions where
  numGroups : Option ℚ
  similarityThreshold : Option ℚ
  errorTolerance : Option ℚ
  maxGroups : Option ℚ
deriving DecidableEq

/-- The all-absent options object (simple mode). -/
def noOptions : EstimateOptions := EstimateOptions.mk none none none none

/-- Validity of a supplied `numGroups` for the optimized path (src/index.js
lines 453-457): a positive integer dividing the signature length. -/
def numGroupsOk (g : Option ℚ) (len : ℕ) : Bool :=
  match g with
  | none => false
  | some q => isPosIntQ q && ((len : ℤ) % q.num == 0)

/-- Validity of a supplied `similarityThreshold` (src/index.js line 463). -/
def thresholdOk (t : Option ℚ) : Bool :=
  match t with
  | none => false
  | some q => decide (0 ≤ q) && decide (q ≤ 1)

/-- Validity of a supplied `errorTolerance` (src/index.js line 466). -/
def toleranceOk (e : Option ℚ) : Bool :=
  match e with
  | none => false
  | some q => decide (0 < q) && decide (q < 1)

/-- Validity of a supplied `maxGroups` (src/index.js line 471). -/
def maxGroupsOk (m : Option ℚ) (g : ℚ) : Bool :=
  match m with
  | none => false
  | some q => isPosIntQ q && decide (q ≤ g)

/-- Embedding of `estimateJaccardSimilarity(signatureA, signatureB, options)`
(src/index.js lines 429-586); `none` signatures model JS `null`.  The
`napprox` parameter abstracts the transcendental normal-approximation branch
of the binomial CDF. -/
def estimateJaccardSimilarity (napprox : ℤ → ℕ → ℚ → ℚ) :
    Option (List ℕ) → Option (List ℕ) → EstimateOptions → Except String ℚ
  | none, _, _ => Except.error "Signatures must be non-null and of equal length."
  | some _, none, _ => Except.error "Signatures must be non-null and of equal length."
  | some a, some b, options =>
    if a.length ≠ b.length then
      Except.error "Signatures must be non-null and of equal length."
    else if a.length = 0 then Except.ok 1
    else
      let hasSET := options.similarityThreshold.isSome || options.errorTolerance.isSome
      let hasFast := options.maxGroups.isSome
      if hasSET || hasFast then
        if ¬ numGroupsOk options.numGroups a.length then
          Except.error "Invalid or missing numGroups for optimized similarity estimation."
        else if hasSET ∧ ¬ thresholdOk options.similarityThreshold then
          Except.error "Invalid or missing similarityThreshold for optimized similarity estimation."
        else if hasSET ∧ ¬ toleranceOk options.errorTolerance then
          Except.error "Invalid or missing errorTolerance for optimized similarity estimation."
        else if hasFast ∧ ¬ maxGroupsOk options.maxGroups (options.numGroups.getD 0) then
          Except.error "Invalid maxGroups for fast approximation."
        else
          let g := (options.numGroups.getD 0).num.toNat
          let kp := a.length / g
          let Tval := options.similarityThreshold.getD 0
          let Ma := (kp : ℚ) * Tval
          let maxG := (options.maxGroups.getD 0).num.toNat
          let effectiveNumGroups := if hasFast then min maxG g else g
          let effTarget := if hasFast then (effectiveNumGroups : ℚ) * Ma else (g : ℚ) * Ma
          let TE := if hasSET then some (Tval, options.errorTolerance.getD 0) else none
          Except.ok (ophLoop napprox (a.zip b) kp a.length effTarget TE 0 effectiveNumGroups 0 0)
      else
        let z := a.zip b
        let unionCount := countUnion z
        let matchCount := countMatches z
        Except.ok (if unionCount = 0 then 1 else (matchCount : ℚ) / (unionCount : ℚ))

/-! ### Auxiliary constant CDF oracles used to instantiate `napprox` in
concrete evaluations. -/

/-- Constant-zero stand-in for the normal-approximation branch. -/
def cdfZero : ℤ → ℕ → ℚ → ℚ := fun _ _ _ => 0

/-- Constant-one stand-in for the normal-approximation branch. -/
def cdfOne : ℤ → ℕ → ℚ → ℚ := fun _ _ _ => 1

/-! ### Basic bounds for the hash embedding -/

theorem U32_eq_pow : U32 = 2 ^ 32 := by norm_num [U32]

theorem I32_eq_pow : I32 = 2 ^ 31 := by norm_num [I32]

theorem fmix32core_lt (x : ℕ) : fmix32core x < U32 := by
  have key : ∀ a : ℕ, a % U32 ^^^ (a % U32) >>> 16 < U32 := by
    intro a
    have ha : a % U32 < U32 := Nat.mod_lt _ (by norm_num [U32])
    have hs : (a % U32) >>> 16 ≤ a % U32 := by
      rw [Nat.shiftRight_eq_div_pow]
      exact Nat.div_le_self _ _
    rw [U32_eq_pow] at ha ⊢
    exact Nat.xor_lt_two_pow ha (lt_of_le_of_lt hs ha)
  exact key _

theorem toInt32_nonneg_of_lt (n : ℕ) (h : n < I32) : toInt32 n = (n : ℤ) := by
  have hU : n < U32 := lt_trans h (by norm_num [I32, U32])
  unfold toInt32
  rw [Nat.mod_eq_of_lt hU]
  simp [h]

theorem toInt32_neg_of_ge (n : ℕ) (hlo : I32 ≤ n) (hhi : n < U32) :
    toInt32 n = (n : ℤ) - (U32 : ℤ) := by
  unfold toInt32
  rw [Nat.mod_eq_of_lt hhi]
  simp [Nat.not_lt.mpr hlo]

theorem toUint32_of_nonneg (z : ℤ) (h0 : 0 ≤ z) (h1 : z < (U32 : ℤ)) :
    toUint32 z = z.toNat := by
  unfold toUint32
  rw [Int.emod_eq_of_lt h0 h1]

theorem toUint32_of_neg (z : ℤ) (h0 : -(U32 : ℤ) ≤ z) (h1 : z < 0) :
    toUint32 z = (z + (U32 : ℤ)).toNat := by
  unfold toUint32
  have : z % (U32 : ℤ) = (z + (U32 : ℤ)) % (U32 : ℤ) := (Int.add_emod_self).symm
  rw [this, Int.emod_eq_of_lt (by linarith) (by linarith)]

theorem dense_small (x w m : ℕ) (hm : maskOf w = m) (hm1 : 1 ≤ m) (hmI : m < I32) :
    1 ≤ computeDenseHash x w ∧ computeDenseHash x w ≤ (m : ℤ) := by
  unfold computeDenseHash jsAnd32
  dsimp only
  rw [hm]
  have hlt : fmix32core x < U32 := fmix32core_lt x
  rw [Nat.mod_eq_of_lt hlt, Nat.mod_eq_of_lt (lt_trans hmI (by norm_num [I32, U32]))]
  have hnm : fmix32core x &&& m ≤ m := Nat.and_le_right
  rw [toInt32_nonneg_of_lt _ (lt_of_le_of_lt hnm hmI)]
  by_cases h0 : ((fmix32core x &&& m : ℕ) : ℤ) = 0
  · rw [if_pos h0]
    exact ⟨le_refl 1, by exact_mod_cast hm1⟩
  · rw [if_neg h0]
    have hne : fmix32core x &&& m ≠ 0 := by exact_mod_cast h0
    exact ⟨by exact_mod_cast Nat.one_le_iff_ne_zero.mpr hne, by exact_mod_cast hnm⟩

theorem dense32_cases (x : ℕ) :
    computeDenseHash x 32 ≠ 0 ∧
    1 ≤ toUint32 (computeDenseHash x 32) ∧
    toUint32 (computeDenseHash x 32) ≤ 2 ^ 32 - 1 ∧
    -(2 : ℤ) ^ 31 ≤ computeDenseHash x 32 ∧ computeDenseHash x 32 < 2 ^ 31 := by
  unfold computeDenseHash jsAnd32
  dsimp only
  have hlt : fmix32core x < U32 := fmix32core_lt x
  have hmask : maskOf 32 = 4294967295 := by norm_num [maskOf]
  rw [hmask, Nat.mod_eq_of_lt hlt, Nat.mod_eq_of_lt (by norm_num [U32] : (4294967295 : ℕ) < U32)]
  have hand : fmix32core x &&& 4294967295 = fmix32core x := by
    have h1 : (4294967295 : ℕ) = 2 ^ 32 - 1 := by norm_num
    rw [h1, Nat.and_pow_two_sub_one_eq_mod, Nat.mod_eq_of_lt (by rw [← U32_eq_pow]; exact hlt)]
  rw [hand]
  by_cases hsmall : fmix32core x < I32
  · rw [toInt32_nonneg_of_lt _ hsmall]
    by_cases h0 : ((fmix32core x : ℕ) : ℤ) = 0
    · rw [if_pos h0]
      refine ⟨one_ne_zero, ?_, ?_, by norm_num, by norm_num⟩
      · rw [toUint32_of_nonneg 1 (by norm_num) (by norm_num [U32])]
        norm_num
      · rw [toUint32_of_nonneg 1 (by norm_num) (by norm_num [U32])]
        norm_num
    · rw [if_neg h0]
      have hne : fmix32core x ≠ 0 := by exact_mod_cast h0
      have h1 : (1 : ℕ) ≤ fmix32core x := Nat.one_le_iff_ne_zero.mpr hne
      have htu : toUint32 ((fmix32core x : ℕ) : ℤ) = fmix32core x := by
        rw [toUint32_of_nonneg _ (Int.natCast_nonneg _) (by exact_mod_cast hlt)]
        exact Int.toNat_natCast _
      refine ⟨h0, ?_, ?_, ?_, ?_⟩
      · rw [htu]; exact h1
      · rw [htu]
        have h2 : fmix32core x < 4294967296 := by simpa [U32] using hlt
        omega
      · have h3 := Int.natCast_nonneg (fmix32core x)
        linarith
      · rw [I32_eq_pow] at hsmall; exact_mod_cast hsmall
  · push_neg at hsmall
    rw [toInt32_neg_of_ge _ hsmall hlt]
    have hneg : ((fmix32core x : ℕ) : ℤ) - (U32 : ℤ) < 0 := by
      have : ((fmix32core x : ℕ) : ℤ) < (U32 : ℤ) := by exact_mod_cast hlt
      linarith
    rw [if_neg (by exact ne_of_lt hneg)]
    have hI : (I32 : ℤ) ≤ ((fmix32core x : ℕ) : ℤ) := by exact_mod_cast hsmall
    refine ⟨ne_of_lt hneg, ?_, ?_, ?_, ?_⟩
    · rw [toUint32_of_neg _ (by linarith [Int.natCast_nonneg (fmix32core x)]) hneg]
      have : ((fmix32core x : ℕ) : ℤ) - (U32 : ℤ) + (U32 : ℤ) = ((fmix32core x : ℕ) : ℤ) := by ring
      rw [this, Int.toNat_natCast]
      have : (1 : ℕ) ≤ I32 := by norm_num [I32]
      omega
    · rw [toUint32_of_neg _ (by linarith [Int.natCast_nonneg (fmix32core x)]) hneg]
      have heq : ((fmix32core x : ℕ) : ℤ) - (U32 : ℤ) + (U32 : ℤ) = ((fmix32core x : ℕ) : ℤ) := by ring
      rw [heq, Int.toNat_natCast]
      rw [U32_eq_pow] at hlt
      omega
    · have : (I32 : ℤ) - (U32 : ℤ) = -(2 : ℤ) ^ 31 := by norm_num [I32, U32]
      linarith
    · have : (0 : ℤ) < (2 : ℤ) ^ 31 := by positivity
      linarith

/-- C2: the secondary hash `_computeDenseHash` is a pure function of its two
arguments (it is a Lean function here), and for widths 2, 4, 8 and 16 its
value lies in `[1, 2^w - 1]`; at width 32 it never represents zero and its
unsigned 32-bit value lies in `[1, 2^32 - 1]`, but — contrary to the claim —
the JS number itself can be negative (the `h &= 0xFFFFFFFF` step uses the
signed JS `&` operator), lying in `[-2^31, 2^31)`. -/
theorem computeDenseHash_range (x : ℕ) (w : ℕ)
    (hw : w = 2 ∨ w = 4 ∨ w = 8 ∨ w = 16) :
    (1 ≤ computeDenseHash x w ∧ computeDenseHash x w ≤ 2 ^ w - 1) ∧
    computeDenseHash x 32 ≠ 0 ∧
    1 ≤ toUint32 (computeDenseHash x 32) ∧
    toUint32 (computeDenseHash x 32) ≤ 2 ^ 32 - 1 ∧
    -(2 : ℤ) ^ 31 ≤ computeDenseHash x 32 ∧ computeDenseHash x 32 < 2 ^ 31 := by
  refine ⟨?_, dense32_cases x⟩
  rcases hw with h | h | h | h <;> subst h
  · have := dense_small x 2 3 (by norm_num [maskOf]) (by norm_num) (by norm_num [I32])
    exact ⟨this.1, by exact_mod_cast this.2⟩
  · have := dense_small x 4 15 (by norm_num [maskOf]) (by norm_num) (by norm_num [I32])
    exact ⟨this.1, by exact_mod_cast this.2⟩
  · have := dense_small x 8 255 (by norm_num [maskOf]) (by norm_num) (by norm_num [I32])
    exact ⟨this.1, by exact_mod_cast this.2⟩
  · have := dense_small x 16 65535 (by norm_num [maskOf]) (by norm_num) (by
      norm_num [I32])
    exact ⟨this.1, by exact_mod_cast this.2⟩

/-- C2 counterexample: at input 3 and width 32, `_computeDenseHash` returns
the negative JS number -2047822809 (bit pattern 0x85EFA527), so its value is
not in `[1, 2^32 - 1]` as the claim states for w = 32. -/
theorem computeDenseHash_w32_not_in_range :
    computeDenseHash 3 32 = -2047822809 ∧ ¬ 1 ≤ computeDenseHash 3 32 := by
  constructor
  · decide
  · decide

/-- C2 witness: the amended range theorem applied at the concrete input
x = 7, w = 8. -/
theorem computeDenseHash_range_witness :
    (1 ≤ computeDenseHash 7 8 ∧ computeDenseHash 7 8 ≤ 2 ^ 8 - 1) ∧
    computeDenseHash 7 32 ≠ 0 ∧
    1 ≤ toUint32 (computeDenseHash 7 32) ∧
    toUint32 (computeDenseHash 7 32) ≤ 2 ^ 32 - 1 ∧
    -(2 : ℤ) ^ 31 ≤ computeDenseHash 7 32 ∧ computeDenseHash 7 32 < 2 ^ 31 :=
  computeDenseHash_range 7 8 (by norm_num)

/-! ### C1: the sentinel-collision bug of the construction post-pass -/

/-- C1: concrete evaluation of the code at the failing input.  Element hash 1
with parameters N = 1, g = 1, w = 2 maps to slot 0 (so the slot is touched),
its dense hash is 3 = the 2-bit fill value, and the post-pass therefore
returns a signature whose slot 0 is 0 — contradicting the claim that a slot
is 0 iff no element mapped into it. -/
theorem sentinel_collision_at_width2 :
    generateGroupedOPHSignature [1] 1 1 2 = Except.ok [0] ∧
    slotTouched [1] 1 1 0 = true ∧
    computeDenseHash (murmurhash3_32_gc_single_int 1 0) 2 = 3 := by
  refine ⟨rfl, rfl, rfl⟩

/-! ### C6: downgrade idempotence -/

theorem downgradeValue_one (mask : ℕ) : downgradeValue mask 1 = 1 := by
  unfold downgradeValue
  rw [if_neg one_ne_zero]
  dsimp only
  by_cases h1 : 1 &&& mask = 0
  · rw [if_pos h1]
  · rw [if_neg h1]
    have h2 : 1 &&& mask ≤ 1 := Nat.and_le_left
    omega

theorem downgradeValue_idem (mask v : ℕ) :
    downgradeValue mask (downgradeValue mask v) = downgradeValue mask v := by
  by_cases h0 : v = 0
  · simp [h0, downgradeValue]
  · by_cases hm : v &&& mask = 0
    · have hv : downgradeValue mask v = 1 := by
        unfold downgradeValue
        rw [if_neg h0]
        dsimp only
        rw [if_pos hm]
      rw [hv, downgradeValue_one]
    · have hv : downgradeValue mask v = v &&& mask := by
        unfold downgradeValue
        rw [if_neg h0]
        dsimp only
        rw [if_neg hm]
      rw [hv]
      unfold downgradeValue
      rw [if_neg hm]
      dsimp only
      rw [Nat.land_assoc, Nat.and_self, if_neg hm]

/-- C6 (amended): downgrading twice to the same target width equals
downgrading once for targets 2 and 4 (whose result container, `Uint8Array`,
still has a strictly larger bit depth); for targets 8 and 16 the second
downgrade is rejected, because the container width of the once-downgraded sketch
equals the target and `downgradeSignature` requires the target to be strictly
lower. -/
theorem downgrade_idempotent_cases (s : Sketch) (w : ℕ) :
    ((w = 2 ∨ w = 4) →
      (downgradeSignature s w).bind (fun t => downgradeSignature t w) =
        downgradeSignature s w) ∧
    ((w = 8 ∨ w = 16) →
      (downgradeSignature s w).bind (fun t => downgradeSignature t w) =
        Except.error "Target bit depth must be lower than current bit depth for downgrade.") := by
  constructor
  · intro hw
    obtain ⟨c, data⟩ := s
    have hmap : ∀ m : ℕ, (data.map (downgradeValue m)).map (downgradeValue m) =
        data.map (downgradeValue m) := by
      intro m
      rw [List.map_map]
      exact List.map_eq_map_iff.mpr (fun a _ => downgradeValue_idem m a)
    rcases hw with h | h <;> subst h <;> cases c <;>
      simp [downgradeSignature, getBitDepth, downgradeContainer, Except.bind, hmap]
  · intro hw
    obtain ⟨c, data⟩ := s
    rcases hw with h | h <;> subst h <;> cases c <;>
      simp [downgradeSignature, getBitDepth, downgradeContainer, Except.bind]

/-- C6 counterexample: for the 32-bit sketch `[5]` and target width 8, the
first downgrade succeeds but applying `downgradeSignature` again with the
same width throws, so the double downgrade is not defined, contrary to the
claim that it is defined and equal to the single downgrade for w = 8. -/
theorem downgrade_twice_width8_throws :
    (downgradeSignature (Sketch.mk Container.u32 [5]) 8).bind
      (fun t => downgradeSignature t 8) =
    Except.error "Target bit depth must be lower than current bit depth for downgrade." ∧
    downgradeSignature (Sketch.mk Container.u32 [5]) 8 =
      Except.ok (Sketch.mk Container.u8 [5]) := by
  refine ⟨rfl, rfl⟩

/-- C6 witness: the amended theorem applied at the concrete sketch
`Uint8Array [7, 0, 200]` and target width 4. -/
theorem downgrade_idempotent_witness :
    (downgradeSignature (Sketch.mk Container.u8 [7, 0, 200]) 4).bind
      (fun t => downgradeSignature t 4) =
    downgradeSignature (Sketch.mk Container.u8 [7, 0, 200]) 4 :=
  (downgrade_idempotent_cases (Sketch.mk Container.u8 [7, 0, 200]) 4).1 (Or.inr rfl)

/-! ### C7: build validation and the empty input set -/

theorem except_isOk_error {α : Type} (e : String) :
    (Except.error e : Except String α).isOk = false := rfl

theorem except_isOk_ok {α : Type} (v : α) :
    (Except.ok v : Except String α).isOk = true := rfl

theorem buildCore_nil (N g w : ℕ) : buildCore [] N g w = List.replicate N 0 := by
  unfold buildCore
  dsimp only
  rw [List.foldl_nil, List.map_replicate, if_pos rfl]

/-- C7: `generateGroupedOPHSignature` rejects exactly the calls where
`numHashes` is not a positive integer, `numGroups` is not a positive integer,
`numHashes` is not divisible by `numGroups`, or `bitDepth` is not one of
2, 4, 8, 16, 32; and on an empty element iterable with valid parameters it
succeeds with the all-zero signature of length `numHashes`. -/
theorem generate_validation (E : List ℕ) (N g w : ℚ) :
    ((generateGroupedOPHSignature E N g w).isOk = true ↔
      (isPosIntQ N = true ∧ isPosIntQ g = true ∧ N.num % g.num = 0 ∧
        (w = 2 ∨ w = 4 ∨ w = 8 ∨ w = 16 ∨ w = 32))) ∧
    (isPosIntQ N = true → isPosIntQ g = true → N.num % g.num = 0 →
      (w = 2 ∨ w = 4 ∨ w = 8 ∨ w = 16 ∨ w = 32) →
      generateGroupedOPHSignature [] N g w =
        Except.ok (List.replicate N.num.toNat 0)) := by
  constructor
  · unfold generateGroupedOPHSignature
    split_ifs with h1 h2 h3 h4 <;>
      simp_all [except_isOk_error, except_isOk_ok]
  · intro hN hg hdvd hw
    unfold generateGroupedOPHSignature
    rw [if_neg (by simp [hN]), if_neg (by simp [hg]), if_neg (by simp [hdvd]),
      if_neg (by simp [hw]), buildCore_nil]

/-- C7 witness: the validation theorem applied at N = 4, g = 2, w = 8 with an
empty element iterable. -/
theorem generate_validation_witness :
    generateGroupedOPHSignature [] 4 2 8 =
      Except.ok (List.replicate ((4 : ℚ).num.toNat) 0) :=
  (generate_validation [] 4 2 8).2 (by decide) (by decide) (by decide)
    (by norm_num)

/-! ### C5: simple mode of the estimator -/

/-- C5: in simple mode (no options) on non-null signatures of equal length L,
the estimator returns 1.0 for L = 0, and otherwise M/U where U counts slots
with at least one nonzero side and M counts slots with equal nonzero values,
returning 1.0 when U = 0. -/
theorem simple_mode_spec (napprox : ℤ → ℕ → ℚ → ℚ) (a b : List ℕ)
    (hlen : a.length = b.length) :
    estimateJaccardSimilarity napprox (some a) (some b) noOptions =
      Except.ok (if a.length = 0 then 1
        else if countUnion (a.zip b) = 0 then 1
        else (countMatches (a.zip b) : ℚ) / (countUnion (a.zip b) : ℚ)) := by
  simp only [estimateJaccardSimilarity]
  rw [if_neg (by simp [hlen])]
  by_cases h0 : a.length = 0
  · rw [if_pos h0, if_pos h0]
  · rw [if_neg h0, if_neg h0]
    simp [noOptions]

/-- C5 witness: the simple-mode theorem applied at the concrete example of
the claim, A = [10, 0, 30, 0] and B = [10, 25, 0, 0], giving 1/3. -/
theorem simple_mode_witness :
    estimateJaccardSimilarity cdfZero (some [10, 0, 30, 0]) (some [10, 25, 0, 0])
      noOptions = Except.ok (1 / 3 : ℚ) := by
  have h := simple_mode_spec cdfZero [10, 0, 30, 0] [10, 25, 0, 0] rfl
  rw [h]
  refine congrArg Except.ok ?_
  rw [show countMatches ([10, 0, 30, 0].zip [10, 25, 0, 0]) = 1 from rfl,
    show countUnion ([10, 0, 30, 0].zip [10, 25, 0, 0]) = 3 from rfl]
  norm_num

/-! ### C3 and C4: the statistical early exits of the optimized estimator -/

/-- C3: at any non-final processed group of the optimized estimator loop
(src/index.js lines 558-573), when the confidently-similar early exit fires
(`Mra < Ma` and the computed tail probability is at most eps), the result is
the extrapolated estimate — estimated full-length matches
`Mc * (L / processed)` over estimated full-length union `Uc * (L / processed)`,
with 1.0 when the estimated union is 0 — and not the constant 1.0. -/
theorem ophLoop_similar_exit (napprox : ℤ → ℕ → ℚ → ℚ) (z : List (ℕ × ℕ))
    (kp L l fuel Mc Uc : ℕ) (effTarget T eps : ℚ)
    (Mc2 Uc2 : ℕ) (Mra : ℚ)
    (hM : Mc2 = Mc + countMatches ((z.drop (l * kp)).take kp))
    (hU : Uc2 = Uc + countUnion ((z.drop (l * kp)).take kp))
    (hMra : Mra = (effTarget - (Mc2 : ℚ)) / ((fuel : ℚ) + 1))
    (h1 : Mra < (kp : ℚ) * T)
    (h2 : binomialCDF napprox ⌊Mra - tieEps⌋ kp T ≤ eps) :
    ophLoop napprox z kp L effTarget (some (T, eps)) l (fuel + 2) Mc Uc =
      if (Uc2 : ℚ) * ((L : ℚ) / (((l + 1) * kp : ℕ) : ℚ)) = 0 then 1
      else ((Mc2 : ℚ) * ((L : ℚ) / (((l + 1) * kp : ℕ) : ℚ))) /
        ((Uc2 : ℚ) * ((L : ℚ) / (((l + 1) * kp : ℕ) : ℚ))) := by
  subst hM hU
  rw [ophLoop]
  rw [if_neg (Nat.succ_ne_zero fuel)]
  dsimp only
  have hcast : ((fuel + 1 : ℕ) : ℚ) = (fuel : ℚ) + 1 := by push_cast; ring
  rw [hcast, ← hMra]
  rw [if_pos h1, if_pos h2]
  simp only [div_mul_eq_mul_div, mul_div_assoc]

/-- C3 witness: the similar-exit theorem applied at a concrete state (two
identical one-slot groups, T = 1/2, eps = 1/2), where the extrapolated
estimate evaluates to 1. -/
theorem ophLoop_similar_exit_witness :
    ophLoop cdfZero [(1, 1), (2, 2)] 1 2 1 (some (1/2, 1/2)) 0 (0 + 2) 0 0 = 1 := by
  have h := ophLoop_similar_exit cdfZero [(1, 1), (2, 2)] 1 2 0 0 0 0 1 (1/2) (1/2)
    1 1 0 (by rfl) (by rfl) (by norm_num) (by norm_num)
    (by
      have hf : ⌊(0 : ℚ) - tieEps⌋ = -1 := by norm_num [tieEps]
      rw [hf]
      norm_num [binomialCDF, cdfZero])
  rw [h]
  norm_num

/-- C4: at any non-final processed group of the optimized estimator loop
(src/index.js lines 574-581), when `Mra ≥ Ma` and the computed probability
`1 - CDF(⌈Mra - 1e-9⌉ - 1)` is at most eps, the estimator returns exactly
0.0 (confidently dissimilar). -/
theorem ophLoop_dissimilar_exit (napprox : ℤ → ℕ → ℚ → ℚ) (z : List (ℕ × ℕ))
    (kp L l fuel Mc Uc : ℕ) (effTarget T eps : ℚ)
    (Mc2 : ℕ) (Mra : ℚ)
    (hM : Mc2 = Mc + countMatches ((z.drop (l * kp)).take kp))
    (hMra : Mra = (effTarget - (Mc2 : ℚ)) / ((fuel : ℚ) + 1))
    (h1 : (kp : ℚ) * T ≤ Mra)
    (h2 : 1 - binomialCDF napprox (⌈Mra - tieEps⌉ - 1) kp T ≤ eps) :
    ophLoop napprox z kp L effTarget (some (T, eps)) l (fuel + 2) Mc Uc = 0 := by
  subst hM
  rw [ophLoop]
  rw [if_neg (Nat.succ_ne_zero fuel)]
  dsimp only
  have hcast : ((fuel + 1 : ℕ) : ℚ) = (fuel : ℚ) + 1 := by push_cast; ring
  rw [hcast, ← hMra]
  rw [if_neg (not_lt.mpr h1), if_pos h2]

/-- C4 witness: the dissimilar-exit theorem applied at a concrete state with
an unreachable match target, where the estimator returns 0. -/
theorem ophLoop_dissimilar_exit_witness :
    ophLoop cdfZero [] 1 2 100 (some (1/2, 1/2)) 0 (0 + 2) 0 0 = 0 :=
  ophLoop_dissimilar_exit cdfZero [] 1 2 0 0 0 0 100 (1/2) (1/2) 0 100
    (by rfl) (by norm_num) (by norm_num)
    (by
      have hc : ⌈(100 : ℚ) - tieEps⌉ = 100 := by
        rw [Int.ceil_eq_iff]
        constructor <;> norm_num [tieEps]
      rw [hc]
      norm_num [binomialCDF])

/-! ### C8: estimator argument validation -/

/-- C8 (amended): `estimateJaccardSimilarity` fails exactly when a signature
is null, the lengths differ, or — provided the signatures are non-empty and
at least one of `similarityThreshold`, `errorTolerance`, `maxGroups` is
supplied (`numGroups` alone triggers no validation) — `numGroups` is not a
positive integer dividing the length, a supplied threshold/tolerance pair is
invalid or incomplete, or `maxGroups` is not a positive integer at most
`numGroups`.  When both signatures have length 0 the call returns 1.0 before
any option validation. -/
theorem estimate_validation (napprox : ℤ → ℕ → ℚ → ℚ) (options : EstimateOptions) :
    (∀ B, (estimateJaccardSimilarity napprox none B options).isOk = false) ∧
    (∀ A, (estimateJaccardSimilarity napprox A none options).isOk = false) ∧
    (∀ a b : List ℕ,
      ((estimateJaccardSimilarity napprox (some a) (some b) options).isOk = false ↔
        (a.length ≠ b.length ∨
          (a.length ≠ 0 ∧
            (options.similarityThreshold.isSome = true ∨ options.errorTolerance.isSome = true ∨
              options.maxGroups.isSome = true) ∧
            (numGroupsOk options.numGroups a.length = false ∨
              ((options.similarityThreshold.isSome = true ∨ options.errorTolerance.isSome = true) ∧
                (thresholdOk options.similarityThreshold = false ∨
                 toleranceOk options.errorTolerance = false)) ∨
              (options.maxGroups.isSome = true ∧
                maxGroupsOk options.maxGroups (options.numGroups.getD 0) = false)))))) := by
  refine ⟨fun B => rfl, fun A => ?_, fun a b => ?_⟩
  · cases A <;> rfl
  · simp only [estimateJaccardSimilarity]
    by_cases hlen : a.length = b.length
    · rw [if_neg (not_not_intro hlen)]
      by_cases h0 : a.length = 0
      · rw [if_pos h0]
        simp [h0, ← hlen, except_isOk_ok]
      · rw [if_neg h0]
        split_ifs with h1 h2 h3 h4 h5 <;>
          simp_all [except_isOk_error, except_isOk_ok] <;> tauto
    · rw [if_pos hlen]
      simp [hlen, except_isOk_error]

/-- C8 counterexample: with two empty signatures, `maxGroups` supplied and
`numGroups = -1` (not a positive integer), the claim says the call throws
InvalidArgument, but the code returns 1.0 — the zero-length early return at
src/index.js line 437 precedes all option validation. -/
theorem estimate_empty_skips_validation :
    estimateJaccardSimilarity cdfZero (some []) (some [])
      (EstimateOptions.mk (some (-1)) none none (some 1)) = Except.ok 1 := rfl

/-! ### C10: every estimate lies in the unit interval -/

theorem countMatches_le_countUnion (z : List (ℕ × ℕ)) :
    countMatches z ≤ countUnion z := by
  unfold countMatches countUnion
  refine List.countP_mono_left (fun p _ hp => ?_)
  simp only [Bool.and_eq_true, beq_iff_eq, Bool.not_eq_true', beq_eq_false_iff_ne,
    Bool.or_eq_true] at hp ⊢
  exact Or.inl hp.2

theorem ratio_unit (Mc Uc : ℕ) (h : Mc ≤ Uc) :
    0 ≤ (if Uc = 0 then (1 : ℚ) else (Mc : ℚ) / (Uc : ℚ)) ∧
      (if Uc = 0 then (1 : ℚ) else (Mc : ℚ) / (Uc : ℚ)) ≤ 1 := by
  split_ifs with h0
  · norm_num
  · have hU : (0 : ℚ) < (Uc : ℚ) := by
      exact_mod_cast Nat.pos_of_ne_zero h0
    constructor
    · positivity
    · rw [div_le_one hU]
      exact_mod_cast h

/-- Invariant of the optimized loop: whenever the running matches do not
exceed the running union count, the loop result lies in `[0, 1]` — every
exit value (final ratio, extrapolated ratio, 0 and 1) does. -/
theorem ophLoop_unit (napprox : ℤ → ℕ → ℚ → ℚ) (z : List (ℕ × ℕ)) (kp L : ℕ)
    (effT : ℚ) (TE : Option (ℚ × ℚ)) :
    ∀ fuel l Mc Uc, Mc ≤ Uc →
      0 ≤ ophLoop napprox z kp L effT TE l fuel Mc Uc ∧
        ophLoop napprox z kp L effT TE l fuel Mc Uc ≤ 1 := by
  intro fuel
  induction fuel with
  | zero =>
    intro l Mc Uc h
    rw [ophLoop]
    exact ratio_unit Mc Uc h
  | succ fuel ih =>
    intro l Mc Uc h
    rw [ophLoop]
    dsimp only
    have h2 : Mc + countMatches ((z.drop (l * kp)).take kp) ≤
        Uc + countUnion ((z.drop (l * kp)).take kp) :=
      Nat.add_le_add h (countMatches_le_countUnion _)
    by_cases hf : fuel = 0
    · rw [if_pos hf]
      exact ratio_unit _ _ h2
    · rw [if_neg hf]
      cases TE with
      | none => exact ih (l + 1) _ _ h2
      | some te =>
        obtain ⟨T, eps⟩ := te
        dsimp only
        split_ifs with ha hb hc hd
        · norm_num
        · have hpos : 0 < ((Uc + countUnion ((z.drop (l * kp)).take kp) : ℕ) : ℚ) /
              (((l + 1) * kp : ℕ) : ℚ) * (L : ℚ) :=
            lt_of_le_of_ne (by positivity) (Ne.symm hc)
          constructor
          · positivity
          · rw [div_le_one hpos]
            have hcast : ((Mc + countMatches ((z.drop (l * kp)).take kp) : ℕ) : ℚ) ≤
                ((Uc + countUnion ((z.drop (l * kp)).take kp) : ℕ) : ℚ) := by
              exact_mod_cast h2
            gcongr
        · exact ih (l + 1) _ _ h2
        · norm_num
        · exact ih (l + 1) _ _ h2

/-- C10: every value returned by `estimateJaccardSimilarity` lies in
`[0, 1]`, in every mode: each counted match also increments the union count,
so `Mc ≤ Uc` throughout; the confidently-dissimilar exit returns 0, the
confidently-similar exit a ratio of a smaller by a larger nonnegative
quantity, and empty signatures give 1. -/
theorem estimate_in_unit (napprox : ℤ → ℕ → ℚ → ℚ) (A B : List ℕ)
    (options : EstimateOptions) (q : ℚ)
    (h : estimateJaccardSimilarity napprox (some A) (some B) options = Except.ok q) :
    0 ≤ q ∧ q ≤ 1 := by
  simp only [estimateJaccardSimilarity] at h
  by_cases h1 : A.length ≠ B.length
  · rw [if_pos h1] at h
    exact absurd h (by simp)
  · rw [if_neg h1] at h
    by_cases h2 : A.length = 0
    · rw [if_pos h2] at h
      rw [Except.ok.injEq] at h
      subst h
      norm_num
    · rw [if_neg h2] at h
      by_cases h3 : ((options.similarityThreshold.isSome || options.errorTolerance.isSome) ||
          options.maxGroups.isSome) = true
      · rw [if_pos h3] at h
        by_cases v1 : ¬ numGroupsOk options.numGroups A.length = true
        · rw [if_pos v1] at h
          exact absurd h (by simp)
        · rw [if_neg v1] at h
          by_cases v2 : (options.similarityThreshold.isSome || options.errorTolerance.isSome) = true ∧
              ¬ thresholdOk options.similarityThreshold = true
          · rw [if_pos v2] at h
            exact absurd h (by simp)
          · rw [if_neg v2] at h
            by_cases v3 : (options.similarityThreshold.isSome || options.errorTolerance.isSome) = true ∧
                ¬ toleranceOk options.errorTolerance = true
            · rw [if_pos v3] at h
              exact absurd h (by simp)
            · rw [if_neg v3] at h
              by_cases v4 : options.maxGroups.isSome = true ∧
                  ¬ maxGroupsOk options.maxGroups (options.numGroups.getD 0) = true
              · rw [if_pos v4] at h
                exact absurd h (by simp)
              · rw [if_neg v4] at h
                rw [Except.ok.injEq] at h
                subst h
                exact ophLoop_unit napprox (A.zip B) _ _ _ _ _ 0 0 0 (le_refl 0)
      · rw [if_neg h3] at h
        rw [Except.ok.injEq] at h
        subst h
        exact ratio_unit _ _ (countMatches_le_countUnion _)

/-- C10 witness: the range theorem applied to a concrete call (two all-zero
one-slot signatures, which return exactly 1). -/
theorem estimate_in_unit_witness :
    estimateJaccardSimilarity cdfZero (some [0]) (some [0]) noOptions = Except.ok 1 ∧
    0 ≤ (1 : ℚ) ∧ (1 : ℚ) ≤ 1 :=
  ⟨rfl, estimate_in_unit cdfZero [0] [0] noOptions 1 rfl⟩

end GroupedOPH
